import Mathlib

/-!
Verification of the image-harvesting and content-rewriting pipeline of
gh-load-issue (src/gh-load-issue.mjs).

JavaScript strings are modelled as lists of characters and byte buffers as
lists of natural numbers (each below 256 by convention).  Network and
file-system effects are made explicit: the fetcher is an oracle parameter
and the orchestrator records the URLs it fetched, the files it wrote and
whether it created the target directory.
-/

namespace GhLoadIssue

/-- Convert a Lean string literal to the character-list model. -/
def str (s : String) : List Char := s.toList

/-- The double-quote character. -/
def quoteD : Char := Char.ofNat 34

/-- The single-quote character. -/
def quoteS : Char := Char.ofNat 39

/-- JavaScript String.prototype.startsWith on the character-list model. -/
def startsWithL : List Char → List Char → Bool
  | _, [] => true
  | [], _ :: _ => false
  | a :: as, b :: bs => a = b && startsWithL as bs

/-- Case-insensitive prefix test (used for patterns compiled with the i flag;
ASCII simple case folding via Char.toLower). -/
def startsWithCI : List Char → List Char → Bool
  | _, [] => true
  | [], _ :: _ => false
  | a :: as, b :: bs => a.toLower = b.toLower && startsWithCI as bs

/-- JavaScript String.prototype.includes (substring containment). -/
def includesL : List Char → List Char → Bool
  | [], needle => needle.isEmpty
  | h :: t, needle => startsWithL (h :: t) needle || includesL t needle

/-- JavaScript String.prototype.endsWith on the character-list model. -/
def endsWithL (s suffix : List Char) : Bool :=
  startsWithL s.reverse suffix.reverse

/-- The whitespace class of JavaScript regular expressions, restricted to the
ASCII range (the Unicode space characters are irrelevant to the inputs
considered here). -/
def isSpaceJs (c : Char) : Bool :=
  c = ' ' || c = '\t' || c = '\n' || c = '\x0b' || c = '\x0c' || c = '\r'

/-- Image format tags produced by the sniffer (the source uses plain strings;
the html tag marks the invalid received-HTML classification). -/
inductive ImgType
  | png
  | jpeg
  | gif
  | webp
  | bmp
  | ico
  | svg
  | html
deriving DecidableEq

/-- Result object of validateImageBytes: valid flag, optional format tag and
optional rejection reason (absent fields of the JS object are none). -/
structure Validation where
  valid : Bool
  type : Option ImgType
  reason : Option (List Char)
deriving DecidableEq

/-- Decode the low 7 bits of each byte, mirroring Buffer.toString with the
ascii encoding used for the WEBP marker check. -/
def asciiBytes (l : List Nat) : List Nat := l.map (fun b => b % 128)

/-- Decode bytes as text for the SVG and HTML checks.  The source decodes
UTF-8; this model decodes ASCII bytes directly and maps every byte outside
the ASCII range to the replacement character, which is adequate because the
markers searched for are pure ASCII. -/
def decodeText (l : List Nat) : List Char :=
  l.map (fun b => if b < 128 then Char.ofNat b else Char.ofNat 0xFFFD)

/-- JavaScript String.prototype.trim followed by toLowerCase, as applied to
the decoded text window. -/
def trimLower (cs : List Char) : List Char :=
  (((cs.dropWhile isSpaceJs).reverse.dropWhile isSpaceJs).reverse).map Char.toLower

/-- Byte access bytes[i]; the sentinel 256 never equals a byte literal, as JS
undefined never equals a number. -/
def byteAt (l : List Nat) (i : Nat) : Nat := l.getD i 256

/-- validateImageBytes: classify a buffer by magic bytes.  The buffer argument
is optional so that the JS falsy check on a null or undefined buffer is
covered; a present buffer shorter than 4 bytes is likewise rejected. -/
def validateImageBytes : Option (List Nat) → Validation
  | none => ⟨false, none, some (str "Buffer too small")⟩
  | some buffer =>
    if buffer.length < 4 then ⟨false, none, some (str "Buffer too small")⟩
    else
      let bytes := buffer.take 12
      if byteAt bytes 0 = 0x89 && byteAt bytes 1 = 0x50 && byteAt bytes 2 = 0x4e
          && byteAt bytes 3 = 0x47 then ⟨true, some ImgType.png, none⟩
      else if byteAt bytes 0 = 0xff && byteAt bytes 1 = 0xd8 && byteAt bytes 2 = 0xff then
        ⟨true, some ImgType.jpeg, none⟩
      else if byteAt bytes 0 = 0x47 && byteAt bytes 1 = 0x49 && byteAt bytes 2 = 0x46 then
        ⟨true, some ImgType.gif, none⟩
      else if byteAt bytes 0 = 0x52 && byteAt bytes 1 = 0x49 && byteAt bytes 2 = 0x46
          && byteAt bytes 3 = 0x46 && buffer.length ≥ 12
          && asciiBytes ((buffer.drop 8).take 4) = [0x57, 0x45, 0x42, 0x50] then
        ⟨true, some ImgType.webp, none⟩
      else if byteAt bytes 0 = 0x42 && byteAt bytes 1 = 0x4d then
        ⟨true, some ImgType.bmp, none⟩
      else if byteAt bytes 0 = 0x00 && byteAt bytes 1 = 0x00 && byteAt bytes 2 = 0x01
          && byteAt bytes 3 = 0x00 then
        ⟨true, some ImgType.ico, none⟩
      else
        let textStart := trimLower (decodeText (buffer.take 100))
        if startsWithL textStart (str "<?xml") || startsWithL textStart (str "<svg") then
          ⟨true, some ImgType.svg, none⟩
        else if includesL textStart (str "<!doctype html") || includesL textStart (str "<html")
            || includesL textStart (str "404") then
          ⟨false, some ImgType.html, some (str "Received HTML instead of image (likely 404 page)")⟩
        else ⟨false, none, some (str "Unknown file format")⟩

/-- getExtensionForType: fixed tag-to-extension table with the .bin fallback
(the html tag is absent from the table, hence .bin). -/
def getExtensionForType : Option ImgType → List Char
  | some ImgType.png => str ".png"
  | some ImgType.jpeg => str ".jpg"
  | some ImgType.gif => str ".gif"
  | some ImgType.webp => str ".webp"
  | some ImgType.bmp => str ".bmp"
  | some ImgType.ico => str ".ico"
  | some ImgType.svg => str ".svg"
  | some ImgType.html => str ".bin"
  | none => str ".bin"

/-- Syntax kind of a discovered reference (the source stores the strings
markdown and html). -/
inductive SyntaxKind
  | markdown
  | html
deriving DecidableEq

/-- One discovered embedded-image reference: full matched text, alt text, URL
and syntax kind, exactly the object pushed by extractImagesFromMarkdown. -/
structure ImageRef where
  original : List Char
  alt : List Char
  url : List Char
  kind : SyntaxKind
deriving DecidableEq

/-- Match the markdown image pattern at the start of the input, returning alt
text, URL and matched length.  This hand-compiles the source regex
for inline images with optional quoted title: after the alt run (characters
other than a closing square bracket) and the URL run (characters that are
neither a closing parenthesis nor whitespace), every backtracking choice of
the regex engine is forced, so the matcher is a plain function. -/
def mdMatchAt : List Char → Option (List Char × List Char × Nat)
  | '!' :: '[' :: rest =>
    let alt := rest.takeWhile (fun c => decide (c ≠ ']'))
    (match rest.drop alt.length with
    | ']' :: '(' :: r2 =>
      let url := r2.takeWhile (fun c => !(c = ')' || isSpaceJs c))
      if url.isEmpty then none
      else
        match r2.drop url.length with
        | c :: r3 =>
          if c = ')' then some (alt, url, alt.length + url.length + 5)
          else if isSpaceJs c then
            let ws := (c :: r3).takeWhile isSpaceJs
            match (c :: r3).drop ws.length with
            | q :: r4 =>
              if q = quoteD then
                let title := r4.takeWhile (fun t => decide (t ≠ quoteD))
                (match r4.drop title.length with
                | q2 :: r5 =>
                  if q2 = quoteD then
                    match r5 with
                    | c5 :: _ =>
                      if c5 = ')' then
                        some (alt, url, alt.length + url.length + ws.length + title.length + 7)
                      else none
                    | [] => none
                  else none
                | [] => none)
              else none
            | [] => none
          else none
        | [] => none
    | _ => none)
  | _ => none

/-- Match the src-attribute part of the HTML image pattern: literal src=
(case-insensitively), an opening quote, a nonempty URL run free of either
quote character, a closing quote, then any run free of the closing angle
bracket followed by that bracket (the optional slash of the source pattern is
absorbed by that run).  Returns the URL and the consumed length. -/
def htmlSrcAt (r : List Char) : Option (List Char × Nat) :=
  if startsWithCI r (str "src=") then
    match r.drop 4 with
    | q :: r2 =>
      if q = quoteD || q = quoteS then
        let url := r2.takeWhile (fun c => !(c = quoteD || c = quoteS))
        if url.isEmpty then none
        else
          match r2.drop url.length with
          | q2 :: r3 =>
            if q2 = quoteD || q2 = quoteS then
              let tail := r3.takeWhile (fun c => decide (c ≠ '>'))
              (match r3.drop tail.length with
              | c :: _ => if c = '>' then some (url, url.length + tail.length + 7) else none
              | [] => none)
            else none
          | [] => none
      else none
    | [] => none
  else none

/-- Greedy search for the split of the one-or-more non-bracket run before the
src attribute: the regex engine prefers the longest run, so candidate lengths
are tried from longest to shortest; the argument bounds the run length. -/
def htmlTryK (rest : List Char) : Nat → Option (List Char × Nat)
  | 0 => none
  | k + 1 =>
    match htmlSrcAt (rest.drop (k + 1)) with
    | some (url, consumed) => some (url, k + 1 + consumed)
    | none => htmlTryK rest k

/-- Match the HTML image pattern at the start of the input (source regex
for img tags, compiled with the i flag), returning the captured src URL and
the matched length. -/
def htmlMatchAt (cs : List Char) : Option (List Char × Nat) :=
  if startsWithCI cs (str "<img") then
    let rest := cs.drop 4
    match htmlTryK rest ((rest.takeWhile (fun c => decide (c ≠ '>'))).length) with
    | some (url, consumed) => some (url, 4 + consumed)
    | none => none
  else none

/-- Wrap a markdown match into the reference object pushed by the source: the
original text is the matched slice of the input. -/
def mdMatchRef (cs : List Char) : Option (ImageRef × Nat) :=
  match mdMatchAt cs with
  | some (alt, url, len) => some (⟨cs.take len, alt, url, SyntaxKind.markdown⟩, len)
  | none => none

/-- Wrap an HTML match into the reference object pushed by the source (alt is
always empty for HTML matches). -/
def htmlMatchRef (cs : List Char) : Option (ImageRef × Nat) :=
  match htmlMatchAt cs with
  | some (url, len) => some (⟨cs.take len, [], url, SyntaxKind.html⟩, len)
  | none => none

/-- Global scan mirroring the repeated exec loop of a global regex: find the
leftmost match, emit it, continue after its end; positions with no match are
skipped one character at a time.  The fuel argument (instantiated with the
input length) bounds the recursion; every step consumes at least one
character, so the bound is never hit early. -/
def scanAux (matchAt : List Char → Option (ImageRef × Nat)) :
    Nat → List Char → List ImageRef
  | 0, _ => []
  | _ + 1, [] => []
  | fuel + 1, c :: cs =>
    match matchAt (c :: cs) with
    | some (r, len) => r :: scanAux matchAt fuel (cs.drop (len - 1))
    | none => scanAux matchAt fuel cs

/-- All markdown-syntax matches of the input, in document order. -/
def mdScan (cs : List Char) : List ImageRef := scanAux mdMatchRef cs.length cs

/-- All HTML-syntax matches of the input, in document order. -/
def htmlScan (cs : List Char) : List ImageRef := scanAux htmlMatchRef cs.length cs

/-- extractImagesFromMarkdown: empty result on an absent or falsy (empty)
blob, otherwise all markdown matches followed by all HTML matches. -/
def extractImagesFromMarkdown : Option (List Char) → List ImageRef
  | none => []
  | some cs => if cs.isEmpty then [] else mdScan cs ++ htmlScan cs





/-- escapeRegex: prefix every regex metacharacter with a backslash, so the
URL participates in the rewrite patterns as a literal string.  Because the
source always escapes the URL before splicing it into a pattern, the embedded
rewrite matchers below compare the URL character by character. -/
def escapeRegex (s : List Char) : List Char :=
  (s.map (fun c =>
    if c = '.' || c = '*' || c = '+' || c = '?' || c = '^' || c = '$'
        || c = Char.ofNat 123 || c = Char.ofNat 125 || c = '(' || c = ')'
        || c = '|' || c = '[' || c = ']' || c = '\\' then ['\\', c]
    else [c])).flatten

/-- Value stored in the URL-to-local-file mapping by the orchestrator. -/
structure LocalImageRecord where
  localPath : List Char
  relativePath : List Char
  type : Option ImgType
  size : Nat
deriving DecidableEq, Inhabited

/-- Match the markdown rewrite pattern at the start of the input: the image
wrapper around the escaped URL with the optional quoted title.
Returns the replacement text (first captured group, then the local path, then
the second captured group) and the matched length. -/
def mdReplMatchAt (url path : List Char) : List Char → Option (List Char × Nat)
  | '!' :: '[' :: rest =>
    let alt := rest.takeWhile (fun c => decide (c ≠ ']'))
    (match rest.drop alt.length with
    | ']' :: '(' :: r2 =>
      if startsWithL r2 url then
        match r2.drop url.length with
        | ')' :: _ =>
          some ('!' :: '[' :: alt ++ ']' :: '(' :: path ++ [')'],
            alt.length + url.length + 5)
        | c :: r3 =>
          if isSpaceJs c then
            let ws := (c :: r3).takeWhile isSpaceJs
            match (c :: r3).drop ws.length with
            | q :: r4 =>
              if q = quoteD then
                let title := r4.takeWhile (fun t => decide (t ≠ quoteD))
                (match r4.drop title.length with
                | q2 :: ')' :: _ =>
                  if q2 = quoteD then
                    some ('!' :: '[' :: alt ++ ']' :: '(' :: path
                        ++ ws ++ quoteD :: title ++ [quoteD, ')'],
                      alt.length + url.length + ws.length + title.length + 7)
                  else none
                | _ => none)
              else none
            | [] => none
          else none
        | [] => none
      else none
    | _ => none)
  | _ => none

/-- Match the src-attribute part of the HTML rewrite pattern: literal src=
(case-insensitively), an opening quote, the escaped URL (the i flag makes
even the URL case-insensitive), and a closing quote.  Returns the consumed
length and the closing quote character (the second captured group). -/
def htmlReplSrcAt (url : List Char) (r : List Char) : Option (Nat × Char) :=
  if startsWithCI r (str "src=") then
    match r.drop 4 with
    | q :: r2 =>
      if q = quoteD || q = quoteS then
        if startsWithCI r2 url then
          match r2.drop url.length with
          | q2 :: _ => if q2 = quoteD || q2 = quoteS then some (url.length + 6, q2) else none
          | [] => none
        else none
      else none
    | [] => none
  else none

/-- Greedy split search for the rewrite pattern, longest run first. -/
def htmlReplTryK (url : List Char) (rest : List Char) : Nat → Option (Nat × Char)
  | 0 => none
  | k + 1 =>
    match htmlReplSrcAt url (rest.drop (k + 1)) with
    | some (consumed, q2) => some (k + 1 + consumed, q2)
    | none => htmlReplTryK url rest k

/-- Match the HTML rewrite pattern at the start of the input, returning the
replacement text (first group verbatim from the input, then the local path,
then the closing quote) and the matched length. -/
def htmlReplMatchAt (url path : List Char) (cs : List Char) : Option (List Char × Nat) :=
  if startsWithCI cs (str "<img") then
    let rest := cs.drop 4
    match htmlReplTryK url rest ((rest.takeWhile (fun c => decide (c ≠ '>'))).length) with
    | some (consumed, q2) =>
      some (cs.take (4 + consumed - url.length - 1) ++ path ++ [q2], 4 + consumed)
    | none => none
  else none

/-- Global replacement scan mirroring String.prototype.replace with a global
pattern: at each position the leftmost match is replaced and scanning resumes
after its end; unmatched characters are copied.  Fuel as in the extractor. -/
def replaceScan (matchAt : List Char → Option (List Char × Nat)) :
    Nat → List Char → List Char
  | 0, cs => cs
  | _ + 1, [] => []
  | fuel + 1, c :: cs =>
    match matchAt (c :: cs) with
    | some (rep, len) => rep ++ replaceScan matchAt fuel (cs.drop (len - 1))
    | none => c :: replaceScan matchAt fuel cs

/-- Replace every markdown-wrapped occurrence of the URL by the local path. -/
def mdReplaceAll (url path cs : List Char) : List Char :=
  replaceScan (mdReplMatchAt url path) cs.length cs

/-- Replace every HTML src occurrence of the URL by the local path. -/
def htmlReplaceAll (url path cs : List Char) : List Char :=
  replaceScan (htmlReplMatchAt url path) cs.length cs

/-- replaceImageUrls: for each mapping entry, run the markdown replacement
pass and then the HTML replacement pass over the accumulated content. -/
def replaceImageUrls (content : List Char) (imageMap : List (List Char × LocalImageRecord)) :
    List Char :=
  imageMap.foldl
    (fun acc p => htmlReplaceAll p.1 p.2.relativePath (mdReplaceAll p.1 p.2.relativePath acc))
    content




/-- The hostname condition guarding credential attachment in downloadImage:
three substring containment tests on the hostname of the target URL. -/
def githubHostCheck (hostname : List Char) : Bool :=
  includesL hostname (str "github.com")
    || includesL hostname (str "githubusercontent.com")
    || includesL hostname (str "github.githubassets.com")

/-- The headers of the GET request issued by downloadImage for a URL with the
given hostname: User-Agent and Accept always, Authorization exactly when a
truthy credential is present and the hostname passes the substring check. -/
def requestHeaders (token : Option (List Char)) (hostname : List Char) :
    List (List Char × List Char) :=
  [(str "User-Agent", str "gh-load-issue"), (str "Accept", str "image/*,*/*")]
    ++ (match token with
        | some t =>
          if !t.isEmpty && githubHostCheck hostname then
            [(str "Authorization", str "Bearer " ++ t)]
          else []
        | none => [])

/-- Modelled from the spec: the fixed allow-list of GitHub content hosts (the
hosting domain, its user-content subdomain, and its static-assets subdomain).
A host is allowed when it is github.com or a subdomain of it, the
user-content domain githubusercontent.com or a subdomain of it, or the
static-assets host github.githubassets.com. -/
def specAllowedHost (h : List Char) : Bool :=
  decide (h = str "github.com") || endsWithL h (str ".github.com")
    || decide (h = str "githubusercontent.com")
    || endsWithL h (str ".githubusercontent.com")
    || decide (h = str "github.githubassets.com")

/-- Failures of the fetcher relevant to the redirect logic: the too-many-
redirects rejection and the non-200 terminal status rejection. -/
inductive FetchError
  | tooManyRedirects
  | httpStatus (code : Nat)
deriving DecidableEq

/-- A terminal or redirect HTTP response as seen by downloadImage: status
code, optional Location header and body bytes. -/
structure HttpResponse where
  statusCode : Nat
  location : Option (List Char)
  body : List Nat

/-- Truthiness of the Location header in JavaScript: present and nonempty. -/
def locTruthy : Option (List Char) → Bool
  | some l => !l.isEmpty
  | none => false

/-- The URL followed on a redirect: the Location value itself when it starts
with http, otherwise the location resolved against the current URL. -/
def redirectTarget (resolveUrl : List Char → List Char → List Char)
    (url loc : List Char) : List Char :=
  if startsWithL loc (str "http") then loc else resolveUrl loc url

/-- downloadImage: recursive redirect-following fetch.  The network is the
server oracle (a function from URL and request headers to a response); URL
resolution against a base (the URL constructor of the source) and hostname
extraction are likewise oracle parameters, since they are library calls.  A
zero budget rejects before any request; a 3xx response with a truthy Location
recurses on the resolved location with the budget decremented; any other
non-200 response rejects with its status code. -/
def downloadImage (server : List Char → List (List Char × List Char) → HttpResponse)
    (resolveUrl : List Char → List Char → List Char)
    (hostnameOf : List Char → List Char) (token : Option (List Char)) :
    List Char → Nat → Except FetchError (List Nat)
  | _, 0 => Except.error FetchError.tooManyRedirects
  | url, n + 1 =>
    let res := server url (requestHeaders token (hostnameOf url))
    if 300 ≤ res.statusCode ∧ res.statusCode < 400 ∧ locTruthy res.location = true then
      downloadImage server resolveUrl hostnameOf token
        (redirectTarget resolveUrl url (res.location.getD [])) n
    else if res.statusCode ≠ 200 then Except.error (FetchError.httpStatus res.statusCode)
    else Except.ok res.body

/-- Node path.basename restricted to POSIX separators: the last path
component after trailing separators are stripped. -/
def pbasename (p : List Char) : List Char :=
  (((p.reverse.dropWhile (fun c => decide (c = '/'))).takeWhile
    (fun c => decide (c ≠ '/'))).reverse)

/-- Node path.join for the two-segment calls of the source, restricted to
segments without redundant separators. -/
def pjoin (a b : List Char) : List Char :=
  if a.isEmpty then b else a ++ '/' :: b

/-- Decimal digits of a natural number, for building file names. -/
def natChars (n : Nat) : List Char := (Nat.repr n).toList

/-- One entry of the downloaded bucket of the report. -/
structure DownloadedEntry where
  url : List Char
  localPath : List Char
  type : Option ImgType
  size : Nat
deriving DecidableEq

/-- One entry of the failed or skipped bucket of the report. -/
structure ReasonEntry where
  url : List Char
  reason : List Char
deriving DecidableEq

/-- Mutable state of the per-reference loop of downloadImages, extended with
an explicit effect log: the URLs passed to the fetcher and the files written,
both in order. -/
structure HarvestState where
  imageMap : List (List Char × LocalImageRecord)
  downloaded : List DownloadedEntry
  failed : List ReasonEntry
  skipped : List ReasonEntry
  imageIndex : Nat
  fetched : List (List Char)
  written : List (List Char × List Nat)
deriving DecidableEq

/-- Membership test of the URL-to-record mapping (Map.prototype.has; the JS
Map preserves insertion order, modelled by an association list). -/
def mapHas (m : List (List Char × LocalImageRecord)) (u : List Char) : Bool :=
  m.any (fun p => decide (p.1 = u))

/-- The body of the per-reference loop of downloadImages.  The fetcher
(downloadImage applied to the ambient network and credential) is abstracted
as an oracle from URL to either an error message or a buffer; Error.message
of the source is the message carried by the error branch.  File writes always
succeed in this model and are recorded in the write log. -/
def processImage (fetch : List Char → Except (List Char) (List Nat))
    (imageDir : List Char) (st : HarvestState) (image : ImageRef) : HarvestState :=
  let idx := st.imageIndex + 1
  let url := image.url
  if mapHas st.imageMap url then
    { st with imageIndex := idx, skipped := st.skipped ++ [⟨url, str "duplicate"⟩] }
  else if startsWithL url (str "data:") then
    { st with imageIndex := idx, skipped := st.skipped ++ [⟨url, str "data URL"⟩] }
  else if !(startsWithL url (str "http://") || startsWithL url (str "https://")) then
    { st with imageIndex := idx, skipped := st.skipped ++ [⟨url, str "non-HTTP URL"⟩] }
  else
    match fetch url with
    | Except.error msg =>
      { st with
        imageIndex := idx
        fetched := st.fetched ++ [url]
        failed := st.failed ++ [⟨url, msg⟩] }
    | Except.ok buffer =>
      let validation := validateImageBytes (some buffer)
      if validation.valid = false then
        { st with
          imageIndex := idx
          fetched := st.fetched ++ [url]
          failed := st.failed ++ [⟨url, validation.reason.getD []⟩] }
      else
        let ext := getExtensionForType validation.type
        let filename := str "image-" ++ natChars idx ++ ext
        let localPath := pjoin imageDir filename
        { st with
          imageIndex := idx
          fetched := st.fetched ++ [url]
          written := st.written ++ [(localPath, buffer)]
          imageMap := st.imageMap
            ++ [(url, ⟨localPath, pjoin (pbasename imageDir) filename,
                  validation.type, buffer.length⟩)]
          downloaded := st.downloaded
            ++ [⟨url, localPath, validation.type, buffer.length⟩] }

/-- The initial loop state. -/
def emptyHarvestState : HarvestState := ⟨[], [], [], [], 0, [], []⟩

/-- The full per-reference loop over an extracted reference sequence. -/
def processImages (fetch : List Char → Except (List Char) (List Nat))
    (imageDir : List Char) (images : List ImageRef) : HarvestState :=
  images.foldl (processImage fetch imageDir) emptyHarvestState

/-- Result of one harvest call: the mapping, the tri-bucket report and the
effect record (fetch log, write log, whether the directory was created). -/
structure HarvestResult where
  imageMap : List (List Char × LocalImageRecord)
  downloaded : List DownloadedEntry
  failed : List ReasonEntry
  skipped : List ReasonEntry
  fetched : List (List Char)
  written : List (List Char × List Nat)
  dirCreated : Bool
deriving DecidableEq

/-- downloadImages: extract references from the blob; with no references,
return immediately with empty mapping and report and no effects; otherwise
create the target directory and run the per-reference loop. -/
def downloadImages (fetch : List Char → Except (List Char) (List Nat))
    (content : Option (List Char)) (imageDir : List Char) : HarvestResult :=
  let images := extractImagesFromMarkdown content
  if images.isEmpty then ⟨[], [], [], [], [], [], false⟩
  else
    let st := processImages fetch imageDir images
    ⟨st.imageMap, st.downloaded, st.failed, st.skipped, st.fetched, st.written, true⟩

/-- The per-state invariant of C9: mapping keys and downloaded URLs coincide
in order, and every record's embedding path is the target directory's
basename joined with an image-prefixed file name. -/
def MapRelInv (dir : List Char) (st : HarvestState) : Prop :=
  st.imageMap.map Prod.fst = st.downloaded.map DownloadedEntry.url
    ∧ ∀ p ∈ st.imageMap,
        ∃ fname, startsWithL fname (str "image-") = true
          ∧ p.2.relativePath = pjoin (pbasename dir) fname

/-- A text decomposes into the given segments in order with arbitrary gaps
between them: the segments occur left to right, without overlap.  Used to
state that scan results appear in document order. -/
inductive SplitsInOrder : List Char → List (List Char) → Prop
  | nil (gap : List Char) : SplitsInOrder gap []
  | cons (gap m rest : List Char) (ms : List (List Char)) (h : SplitsInOrder rest ms) :
      SplitsInOrder (gap ++ m ++ rest) (m :: ms)

/-! Test fixtures: concrete buffers and fetch oracles used to instantiate the
theorems below. -/

/-- A buffer carrying the PNG magic bytes. -/
def pngBuf : List Nat := [0x89, 0x50, 0x4e, 0x47, 0, 0, 0, 0]

/-- A fetch oracle that always succeeds with the PNG buffer. -/
def oracleOk (_ : List Char) : Except (List Char) (List Nat) := Except.ok pngBuf

/-- A fetch oracle that always fails. -/
def oracleErr (_ : List Char) : Except (List Char) (List Nat) :=
  Except.error (str "boom")

/-- A buffer matching no image signature (sniffed as unknown file format). -/
def badBuf : List Nat := [0, 1, 2, 3, 4]

/-- A fetch oracle that always succeeds with the non-image buffer. -/
def oracleBad (_ : List Char) : Except (List Char) (List Nat) := Except.ok badBuf

/-- A fetch oracle failing exactly for the second of three scenario URLs. -/
def oracleB404 (u : List Char) : Except (List Char) (List Nat) :=
  if u = str "http://h/b" then Except.error (str "HTTP 404: Not Found") else Except.ok pngBuf

/-! Theorems. -/

/-- Unfolding equation for one fetch step with a positive budget. -/
theorem downloadImage_succ (server : List Char → List (List Char × List Char) → HttpResponse)
    (resolveUrl : List Char → List Char → List Char) (hostnameOf : List Char → List Char)
    (token : Option (List Char)) (url : List Char) (n : Nat) :
    downloadImage server resolveUrl hostnameOf token url (n + 1)
      = (if 300 ≤ (server url (requestHeaders token (hostnameOf url))).statusCode
              ∧ (server url (requestHeaders token (hostnameOf url))).statusCode < 400
              ∧ locTruthy (server url (requestHeaders token (hostnameOf url))).location = true
          then downloadImage server resolveUrl hostnameOf token
            (redirectTarget resolveUrl url
              ((server url (requestHeaders token (hostnameOf url))).location.getD [])) n
          else if (server url (requestHeaders token (hostnameOf url))).statusCode ≠ 200
          then Except.error
            (FetchError.httpStatus (server url (requestHeaders token (hostnameOf url))).statusCode)
          else Except.ok (server url (requestHeaders token (hostnameOf url))).body) := rfl

/-- C8 counterexample: on a concrete buffer shorter than 4 bytes the sniffer
rejects, but its rejection reason is not the exact string claimed ("buffer
too small"): the source capitalizes it. -/
theorem sniffer_small_buffer_cex :
    (validateImageBytes (some [])).valid = false
      ∧ (validateImageBytes (some [])).reason ≠ some (str "buffer too small") := by
  decide

/-- C8 (amended: the exact reason string is "Buffer too small"): every absent
buffer or buffer shorter than 4 bytes is classified invalid with no format
tag and reason "Buffer too small". -/
theorem sniffer_small_buffer_amended :
    validateImageBytes none = ⟨false, none, some (str "Buffer too small")⟩
      ∧ ∀ l : List Nat, l.length < 4 →
          validateImageBytes (some l) = ⟨false, none, some (str "Buffer too small")⟩ := by
  refine ⟨rfl, fun l hl => ?_⟩
  simp only [validateImageBytes]
  rw [if_pos hl]

/-- Witness for the amended C8 theorem at the concrete buffer of three
bytes. -/
theorem sniffer_small_buffer_amended_witness :
    validateImageBytes (some [1, 2, 3]) = ⟨false, none, some (str "Buffer too small")⟩ :=
  sniffer_small_buffer_amended.2 [1, 2, 3] (by decide)

/-- C2: the credential check is substring containment on the hostname, not
membership in the fixed allow-list of GitHub content hosts; for the
third-party host github.com.evil.example (outside the allow-list modelled
from the spec) the request headers differ depending on whether a credential
is supplied, and the Authorization header carrying the bearer credential is
sent to that host. -/
theorem credential_sent_to_substring_matching_host :
    specAllowedHost (str "github.com.evil.example") = false
      ∧ githubHostCheck (str "github.com.evil.example") = true
      ∧ requestHeaders (some (str "tok")) (str "github.com.evil.example")
          ≠ requestHeaders none (str "github.com.evil.example")
      ∧ (str "Authorization", str "Bearer tok")
          ∈ requestHeaders (some (str "tok")) (str "github.com.evil.example") := by
  decide

/-- C5: redirect handling of the fetcher.  A zero budget rejects with the
too-many-redirects error before issuing a request; a 3xx response with a
truthy Location header recurses on the redirect target with the budget
decremented; a non-redirect non-200 response rejects with its status code;
and against a server that always redirects, every budget is exhausted and
the fetch rejects with the too-many-redirects error. -/
theorem fetch_redirect_budget :
    (∀ server resolveUrl hostnameOf token (url : List Char),
      downloadImage server resolveUrl hostnameOf token url 0
        = Except.error FetchError.tooManyRedirects)
    ∧ (∀ server resolveUrl hostnameOf token (url : List Char) (n : Nat),
        300 ≤ (server url (requestHeaders token (hostnameOf url))).statusCode →
        (server url (requestHeaders token (hostnameOf url))).statusCode < 400 →
        locTruthy (server url (requestHeaders token (hostnameOf url))).location = true →
        downloadImage server resolveUrl hostnameOf token url (n + 1)
          = downloadImage server resolveUrl hostnameOf token
              (redirectTarget resolveUrl url
                ((server url (requestHeaders token (hostnameOf url))).location.getD [])) n)
    ∧ (∀ server resolveUrl hostnameOf token (url : List Char) (n : Nat),
        ¬(300 ≤ (server url (requestHeaders token (hostnameOf url))).statusCode
            ∧ (server url (requestHeaders token (hostnameOf url))).statusCode < 400
            ∧ locTruthy (server url (requestHeaders token (hostnameOf url))).location = true) →
        (server url (requestHeaders token (hostnameOf url))).statusCode ≠ 200 →
        downloadImage server resolveUrl hostnameOf token url (n + 1)
          = Except.error
              (FetchError.httpStatus
                (server url (requestHeaders token (hostnameOf url))).statusCode))
    ∧ (∀ server resolveUrl hostnameOf token,
        (∀ (u : List Char) (hs : List (List Char × List Char)),
          300 ≤ (server u hs).statusCode ∧ (server u hs).statusCode < 400
            ∧ locTruthy (server u hs).location = true) →
        ∀ (n : Nat) (url : List Char),
          downloadImage server resolveUrl hostnameOf token url n
            = Except.error FetchError.tooManyRedirects) := by
  refine ⟨fun _ _ _ _ _ => rfl, ?_, ?_, ?_⟩
  · intro server resolveUrl hostnameOf token url n h1 h2 h3
    rw [downloadImage_succ, if_pos ⟨h1, h2, h3⟩]
  · intro server resolveUrl hostnameOf token url n hred h200
    rw [downloadImage_succ, if_neg hred, if_pos h200]
  · intro server resolveUrl hostnameOf token hserver n
    induction n with
    | zero => intro url; rfl
    | succ m ih =>
      intro url
      rw [downloadImage_succ, if_pos (hserver url (requestHeaders token (hostnameOf url)))]
      exact ih _

/-- Witness for the fetch redirect theorem: a concrete always-redirecting
server exhausts the default budget of 5, and a concrete 404 response is
reported with its status code. -/
theorem fetch_redirect_budget_witness :
    downloadImage (fun _ _ => ⟨301, some (str "http://e/next"), []⟩)
        (fun l _ => l) (fun _ => str "e") none (str "http://e/a") 5
      = Except.error FetchError.tooManyRedirects
    ∧ downloadImage (fun _ _ => ⟨404, none, []⟩)
        (fun l _ => l) (fun _ => str "e") none (str "http://e/a") 5
      = Except.error (FetchError.httpStatus 404) := by
  constructor
  · exact fetch_redirect_budget.2.2.2 _ _ _ _ (fun _ _ => by decide) 5 _
  · exact fetch_redirect_budget.2.2.1 _ _ _ _ _ 4 (by decide) (by decide)

/-- The membership test of the mapping decides membership among its keys. -/
theorem mapHas_iff_mem_keys (m : List (List Char × LocalImageRecord)) (u : List Char) :
    mapHas m u = true ↔ u ∈ m.map Prod.fst := by
  simp [mapHas, List.any_eq_true]

/-- A just-inserted key is found by the membership test. -/
theorem mapHas_append_self (m : List (List Char × LocalImageRecord))
    (u : List Char) (r : LocalImageRecord) : mapHas (m ++ [(u, r)]) u = true := by
  simp [mapHas, List.any_append]

/-- The loop body always advances the discovery counter by one. -/
theorem processImage_imageIndex (fetch : List Char → Except (List Char) (List Nat))
    (dir : List Char) (st : HarvestState) (img : ImageRef) :
    (processImage fetch dir st img).imageIndex = st.imageIndex + 1 := by
  unfold processImage
  dsimp only
  repeat first
  | rfl
  | split

/-- The loop body adds exactly one entry across the three report buckets. -/
theorem processImage_buckets (fetch : List Char → Except (List Char) (List Nat))
    (dir : List Char) (st : HarvestState) (img : ImageRef) :
    (processImage fetch dir st img).downloaded.length
        + (processImage fetch dir st img).failed.length
        + (processImage fetch dir st img).skipped.length
      = st.downloaded.length + st.failed.length + st.skipped.length + 1 := by
  unfold processImage
  dsimp only
  repeat first
  | (simp only [List.length_append, List.length_cons, List.length_nil]; omega)
  | split

/-- Equation for the duplicate branch of the loop body. -/
theorem processImage_dup (fetch : List Char → Except (List Char) (List Nat))
    (dir : List Char) (st : HarvestState) (img : ImageRef)
    (h : mapHas st.imageMap img.url = true) :
    processImage fetch dir st img
      = { st with
          imageIndex := st.imageIndex + 1
          skipped := st.skipped ++ [⟨img.url, str "duplicate"⟩] } := by
  unfold processImage
  simp only [h, if_true]

/-- Equation for the fetch-failure branch of the loop body. -/
theorem processImage_error (fetch : List Char → Except (List Char) (List Nat))
    (dir : List Char) (st : HarvestState) (img : ImageRef) (msg : List Char)
    (h1 : mapHas st.imageMap img.url = false)
    (h2 : (startsWithL img.url (str "http://") || startsWithL img.url (str "https://")) = true)
    (h3 : startsWithL img.url (str "data:") = false)
    (h4 : fetch img.url = Except.error msg) :
    processImage fetch dir st img
      = { st with
          imageIndex := st.imageIndex + 1
          fetched := st.fetched ++ [img.url]
          failed := st.failed ++ [⟨img.url, msg⟩] } := by
  unfold processImage
  simp only [h1, h2, h3, h4, Bool.false_eq_true, if_false, Bool.not_true, if_true]

/-- Equation for the sniff-rejection branch of the loop body: an invalid
classification becomes a failed entry carrying the rejection reason. -/
theorem processImage_invalid (fetch : List Char → Except (List Char) (List Nat))
    (dir : List Char) (st : HarvestState) (img : ImageRef) (buf : List Nat)
    (h1 : mapHas st.imageMap img.url = false)
    (h2 : (startsWithL img.url (str "http://") || startsWithL img.url (str "https://")) = true)
    (h3 : startsWithL img.url (str "data:") = false)
    (h4 : fetch img.url = Except.ok buf)
    (h5 : (validateImageBytes (some buf)).valid = false) :
    processImage fetch dir st img
      = { st with
          imageIndex := st.imageIndex + 1
          fetched := st.fetched ++ [img.url]
          failed := st.failed
            ++ [⟨img.url, (validateImageBytes (some buf)).reason.getD []⟩] } := by
  unfold processImage
  simp only [h1, h2, h3, h4, h5, Bool.false_eq_true, Bool.not_true, if_false, if_true,
    eq_self_iff_true]

/-- Equation for the success branch of the loop body. -/
theorem processImage_success (fetch : List Char → Except (List Char) (List Nat))
    (dir : List Char) (st : HarvestState) (img : ImageRef) (buf : List Nat)
    (h1 : mapHas st.imageMap img.url = false)
    (h2 : (startsWithL img.url (str "http://") || startsWithL img.url (str "https://")) = true)
    (h3 : startsWithL img.url (str "data:") = false)
    (h4 : fetch img.url = Except.ok buf)
    (h5 : (validateImageBytes (some buf)).valid = true) :
    processImage fetch dir st img
      = { st with
          imageIndex := st.imageIndex + 1
          fetched := st.fetched ++ [img.url]
          written := st.written
            ++ [(pjoin dir (str "image-" ++ natChars (st.imageIndex + 1)
                  ++ getExtensionForType (validateImageBytes (some buf)).type), buf)]
          imageMap := st.imageMap
            ++ [(img.url,
                ⟨pjoin dir (str "image-" ++ natChars (st.imageIndex + 1)
                    ++ getExtensionForType (validateImageBytes (some buf)).type),
                  pjoin (pbasename dir) (str "image-" ++ natChars (st.imageIndex + 1)
                    ++ getExtensionForType (validateImageBytes (some buf)).type),
                  (validateImageBytes (some buf)).type, buf.length⟩)]
          downloaded := st.downloaded
            ++ [⟨img.url,
                pjoin dir (str "image-" ++ natChars (st.imageIndex + 1)
                  ++ getExtensionForType (validateImageBytes (some buf)).type),
                (validateImageBytes (some buf)).type, buf.length⟩] } := by
  unfold processImage
  simp only [h1, h2, h3, h4, h5, Bool.false_eq_true, if_false, Bool.not_true, if_true,
    Bool.true_eq_false]

/-- The loop advances the discovery counter once per reference. -/
theorem processImages_go_index (fetch : List Char → Except (List Char) (List Nat))
    (dir : List Char) :
    ∀ (images : List ImageRef) (st : HarvestState),
      (images.foldl (processImage fetch dir) st).imageIndex = st.imageIndex + images.length := by
  intro images
  induction images with
  | nil => intro st; simp
  | cons a l ih =>
    intro st
    simp only [List.foldl_cons, List.length_cons]
    rw [ih, processImage_imageIndex]
    omega

/-- The loop adds exactly one report entry per reference. -/
theorem processImages_go_buckets (fetch : List Char → Except (List Char) (List Nat))
    (dir : List Char) :
    ∀ (images : List ImageRef) (st : HarvestState),
      (images.foldl (processImage fetch dir) st).downloaded.length
          + (images.foldl (processImage fetch dir) st).failed.length
          + (images.foldl (processImage fetch dir) st).skipped.length
        = st.downloaded.length + st.failed.length + st.skipped.length + images.length := by
  intro images
  induction images with
  | nil => intro st; simp
  | cons a l ih =>
    intro st
    simp only [List.foldl_cons, List.length_cons]
    rw [ih]
    have h := processImage_buckets fetch dir st a
    omega

/-- C10: a harvest that discovers no references returns an empty mapping and
report while fetching nothing, writing nothing and not creating the target
directory; whenever at least one reference is discovered, the target
directory is created, whatever happens to the individual references. -/
theorem no_refs_no_effects_dir_on_refs :
    (∀ fetch content (dir : List Char), extractImagesFromMarkdown content = [] →
      downloadImages fetch content dir = ⟨[], [], [], [], [], [], false⟩)
    ∧ (∀ fetch content (dir : List Char), extractImagesFromMarkdown content ≠ [] →
      (downloadImages fetch content dir).dirCreated = true) := by
  constructor
  · intro fetch content dir h
    unfold downloadImages
    simp [h]
  · intro fetch content dir h
    unfold downloadImages
    simp [List.isEmpty_iff, h]

/-- Witness for C10: an absent blob yields the empty result, and a blob with
one (failing) reference still creates the directory. -/
theorem no_refs_no_effects_dir_on_refs_witness :
    downloadImages oracleErr none (str "imgs") = ⟨[], [], [], [], [], [], false⟩
    ∧ (downloadImages oracleErr (some (str "![a](http://e/x)")) (str "imgs")).dirCreated
        = true := by
  constructor
  · exact no_refs_no_effects_dir_on_refs.1 oracleErr none (str "imgs") (by decide)
  · exact no_refs_no_effects_dir_on_refs.2 oracleErr
      (some (str "![a](http://e/x)")) (str "imgs") (by decide)

/-- C4: every per-URL failure is absorbed: a fetch failure becomes a failed
report entry carrying the error message and a sniff rejection becomes a
failed report entry carrying the rejection reason, in both cases changing
nothing else; the loop is a total function and continues over the remaining
references for every oracle, and each discovered reference lands in exactly
one report bucket, so the three bucket sizes always add up to the number of
discovered references. -/
theorem per_url_failure_isolation :
    (∀ fetch (dir : List Char) (images : List ImageRef),
      (processImages fetch dir images).downloaded.length
          + (processImages fetch dir images).failed.length
          + (processImages fetch dir images).skipped.length = images.length)
    ∧ (∀ fetch content (dir : List Char),
      (downloadImages fetch content dir).downloaded.length
          + (downloadImages fetch content dir).failed.length
          + (downloadImages fetch content dir).skipped.length
        = (extractImagesFromMarkdown content).length)
    ∧ (∀ fetch (dir : List Char) (st : HarvestState) (img : ImageRef) (msg : List Char),
        mapHas st.imageMap img.url = false →
        (startsWithL img.url (str "http://") || startsWithL img.url (str "https://")) = true →
        startsWithL img.url (str "data:") = false →
        fetch img.url = Except.error msg →
        processImage fetch dir st img
          = { st with
              imageIndex := st.imageIndex + 1
              fetched := st.fetched ++ [img.url]
              failed := st.failed ++ [⟨img.url, msg⟩] })
    ∧ (∀ fetch (dir : List Char) (st : HarvestState) (img : ImageRef) (buf : List Nat),
        mapHas st.imageMap img.url = false →
        (startsWithL img.url (str "http://") || startsWithL img.url (str "https://")) = true →
        startsWithL img.url (str "data:") = false →
        fetch img.url = Except.ok buf →
        (validateImageBytes (some buf)).valid = false →
        processImage fetch dir st img
          = { st with
              imageIndex := st.imageIndex + 1
              fetched := st.fetched ++ [img.url]
              failed := st.failed
                ++ [⟨img.url, (validateImageBytes (some buf)).reason.getD []⟩] }) := by
  refine ⟨?_, ?_, ?_, ?_⟩
  · intro fetch dir images
    have h := processImages_go_buckets fetch dir images emptyHarvestState
    simpa [processImages, emptyHarvestState] using h
  · intro fetch content dir
    unfold downloadImages
    rcases h : (extractImagesFromMarkdown content).isEmpty with hF | hT
    · simp only [h, Bool.false_eq_true, if_false]
      have hb := processImages_go_buckets fetch dir (extractImagesFromMarkdown content)
        emptyHarvestState
      simpa [processImages, emptyHarvestState] using hb
    · simp only [h, if_true]
      simp [List.isEmpty_iff.mp h]
  · intro fetch dir st img msg h1 h2 h3 h4
    exact processImage_error fetch dir st img msg h1 h2 h3 h4
  · intro fetch dir st img buf h1 h2 h3 h4 h5
    exact processImage_invalid fetch dir st img buf h1 h2 h3 h4 h5

/-- Witness for C4: an always-failing oracle over a two-reference blob fills
the failed bucket only, a concrete failing fetch appends its message, and a
concrete non-image buffer appends its rejection reason. -/
theorem per_url_failure_isolation_witness :
    (downloadImages oracleErr (some (str "![a](http://e/x) ![b](http://e/y)")) (str "imgs")).downloaded.length
        + (downloadImages oracleErr (some (str "![a](http://e/x) ![b](http://e/y)")) (str "imgs")).failed.length
        + (downloadImages oracleErr (some (str "![a](http://e/x) ![b](http://e/y)")) (str "imgs")).skipped.length
      = (extractImagesFromMarkdown (some (str "![a](http://e/x) ![b](http://e/y)"))).length
    ∧ processImage oracleErr (str "imgs") emptyHarvestState
        ⟨str "![a](http://e/x)", str "a", str "http://e/x", SyntaxKind.markdown⟩
        = { emptyHarvestState with
            imageIndex := 1
            fetched := [str "http://e/x"]
            failed := [⟨str "http://e/x", str "boom"⟩] }
    ∧ processImage oracleBad (str "imgs") emptyHarvestState
        ⟨str "![a](http://e/x)", str "a", str "http://e/x", SyntaxKind.markdown⟩
        = { emptyHarvestState with
            imageIndex := 1
            fetched := [str "http://e/x"]
            failed := [⟨str "http://e/x", str "Unknown file format"⟩] } := by
  refine ⟨?_, ?_, ?_⟩
  · exact per_url_failure_isolation.2.1 oracleErr
      (some (str "![a](http://e/x) ![b](http://e/y)")) (str "imgs")
  · have h := per_url_failure_isolation.2.2.1 oracleErr (str "imgs") emptyHarvestState
      ⟨str "![a](http://e/x)", str "a", str "http://e/x", SyntaxKind.markdown⟩
      (str "boom") (by decide) (by decide) (by decide) rfl
    simpa [emptyHarvestState] using h
  · have h := per_url_failure_isolation.2.2.2 oracleBad (str "imgs") emptyHarvestState
      ⟨str "![a](http://e/x)", str "a", str "http://e/x", SyntaxKind.markdown⟩
      badBuf (by decide) (by decide) (by decide) rfl (by decide)
    rw [h]
    decide

/-- C3: the 1-based discovery counter advances once per reference processed,
skipped or failed ones included; it is used only to number successful
downloads, whose file name is image-(counter) with an extension derived from
the sniffed format tag alone; in the three-URL scenario where the second
fetch fails, the two downloaded files are numbered image-1 and image-3. -/
theorem discovery_counter_numbering :
    (∀ fetch (dir : List Char) (images : List ImageRef),
      (processImages fetch dir images).imageIndex = images.length)
    ∧ (∀ fetch (dir : List Char) (st : HarvestState) (img : ImageRef) (buf : List Nat),
        mapHas st.imageMap img.url = false →
        (startsWithL img.url (str "http://") || startsWithL img.url (str "https://")) = true →
        startsWithL img.url (str "data:") = false →
        fetch img.url = Except.ok buf →
        (validateImageBytes (some buf)).valid = true →
        (processImage fetch dir st img).downloaded
          = st.downloaded
            ++ [⟨img.url,
                pjoin dir (str "image-" ++ natChars (st.imageIndex + 1)
                  ++ getExtensionForType (validateImageBytes (some buf)).type),
                (validateImageBytes (some buf)).type, buf.length⟩])
    ∧ (downloadImages oracleB404
          (some (str "![a](http://h/a)![b](http://h/b)![c](http://h/c)"))
          (str "imgs")).downloaded.map DownloadedEntry.localPath
        = [str "imgs/image-1.png", str "imgs/image-3.png"] := by
  refine ⟨?_, ?_, ?_⟩
  · intro fetch dir images
    have h := processImages_go_index fetch dir images emptyHarvestState
    simpa [processImages, emptyHarvestState] using h
  · intro fetch dir st img buf h1 h2 h3 h4 h5
    rw [processImage_success fetch dir st img buf h1 h2 h3 h4 h5]
  · decide

/-- Witness for C3: the counter equation at a concrete two-reference list and
the success equation at a concrete reference. -/
theorem discovery_counter_numbering_witness :
    (processImages oracleOk (str "d")
        [⟨str "![a](http://e/x)", str "a", str "http://e/x", SyntaxKind.markdown⟩,
          ⟨str "![b](http://e/y)", str "b", str "http://e/y", SyntaxKind.markdown⟩]).imageIndex = 2
    ∧ (processImage oracleOk (str "d") emptyHarvestState
        ⟨str "![a](http://e/x)", str "a", str "http://e/x", SyntaxKind.markdown⟩).downloaded
      = emptyHarvestState.downloaded
          ++ [⟨str "http://e/x",
              pjoin (str "d") (str "image-" ++ natChars (emptyHarvestState.imageIndex + 1)
                ++ getExtensionForType (validateImageBytes (some pngBuf)).type),
              (validateImageBytes (some pngBuf)).type, pngBuf.length⟩] := by
  constructor
  · exact discovery_counter_numbering.1 oracleOk (str "d") _
  · exact discovery_counter_numbering.2.1 oracleOk (str "d") emptyHarvestState
      ⟨str "![a](http://e/x)", str "a", str "http://e/x", SyntaxKind.markdown⟩ pngBuf
      (by decide) (by decide) (by decide) rfl (by decide)

/-- A list prefixed by itself passes the prefix test. -/
theorem startsWithL_append_self (pre : List Char) :
    ∀ rest : List Char, startsWithL (pre ++ rest) pre = true := by
  induction pre with
  | nil => intro rest; cases rest <;> rfl
  | cons c t ih => intro rest; simp [startsWithL, ih]

/-- The basename computed by the path model never contains a separator. -/
theorem pbasename_no_slash (p : List Char) : ∀ c ∈ pbasename p, c ≠ '/' := by
  intro c hc
  unfold pbasename at hc
  rw [List.mem_reverse] at hc
  have := List.mem_takeWhile_imp hc
  simpa using this

/-- A list starting with one character does not start with a different one. -/
theorem startsWithL_head_ne (l : List Char) (c d : Char) (p : List Char)
    (h : startsWithL l (c :: p) = true) (hne : d ≠ c) : startsWithL l [d] = false := by
  cases l with
  | nil => simp [startsWithL] at h
  | cons a t =>
    have ha : a = c := by
      by_contra hne'
      simp [startsWithL, hne'] at h
    subst ha
    have had : a ≠ d := fun hh => hne hh.symm
    simp [startsWithL, had]

/-- Joining a basename with a file name whose first character is not a
separator never yields an absolute path. -/
theorem pjoin_basename_not_abs (dir fname : List Char)
    (h : startsWithL fname (str "image-") = true) :
    startsWithL (pjoin (pbasename dir) fname) (str "/") = false := by
  have hs : str "/" = ['/'] := rfl
  have hi : str "image-" = 'i' :: str "mage-" := rfl
  rw [hi] at h
  unfold pjoin
  split
  · rw [hs]
    exact startsWithL_head_ne fname 'i' '/' (str "mage-") h (by decide)
  · rcases hb : pbasename dir with _ | ⟨c, t⟩
    · simp_all [List.isEmpty_iff]
    · have hc : c ≠ '/' := pbasename_no_slash dir c (by rw [hb]; exact List.mem_cons_self c t)
      rw [hs]
      simp [startsWithL, hc]

/-- Exhaustive description of the loop body: every branch advances the
counter and touches exactly one report bucket; the mapping and the
downloaded bucket are extended together in the success branch only. -/
theorem processImage_cases (fetch : List Char → Except (List Char) (List Nat))
    (dir : List Char) (st : HarvestState) (img : ImageRef) :
    (∃ reason, processImage fetch dir st img
        = { st with
            imageIndex := st.imageIndex + 1
            skipped := st.skipped ++ [⟨img.url, reason⟩] })
    ∨ (∃ msg, processImage fetch dir st img
        = { st with
            imageIndex := st.imageIndex + 1
            fetched := st.fetched ++ [img.url]
            failed := st.failed ++ [⟨img.url, msg⟩] })
    ∨ (∃ buf, mapHas st.imageMap img.url ≠ true
        ∧ processImage fetch dir st img
          = { st with
              imageIndex := st.imageIndex + 1
              fetched := st.fetched ++ [img.url]
              written := st.written
                ++ [(pjoin dir (str "image-" ++ natChars (st.imageIndex + 1)
                      ++ getExtensionForType (validateImageBytes (some buf)).type), buf)]
              imageMap := st.imageMap
                ++ [(img.url,
                    ⟨pjoin dir (str "image-" ++ natChars (st.imageIndex + 1)
                        ++ getExtensionForType (validateImageBytes (some buf)).type),
                      pjoin (pbasename dir) (str "image-" ++ natChars (st.imageIndex + 1)
                        ++ getExtensionForType (validateImageBytes (some buf)).type),
                      (validateImageBytes (some buf)).type, buf.length⟩)]
              downloaded := st.downloaded
                ++ [⟨img.url,
                    pjoin dir (str "image-" ++ natChars (st.imageIndex + 1)
                      ++ getExtensionForType (validateImageBytes (some buf)).type),
                    (validateImageBytes (some buf)).type, buf.length⟩] }) := by
  unfold processImage
  dsimp only
  split
  · exact Or.inl ⟨str "duplicate", rfl⟩
  case isFalse h1 =>
    split
    · exact Or.inl ⟨str "data URL", rfl⟩
    split
    · exact Or.inl ⟨str "non-HTTP URL", rfl⟩
    split
    · exact Or.inr (Or.inl ⟨_, rfl⟩)
    split
    · exact Or.inr (Or.inl ⟨_, rfl⟩)
    exact Or.inr (Or.inr ⟨_, h1, rfl⟩)

/-- The loop body keeps the mapping keys free of duplicates. -/
theorem processImage_nodup (fetch : List Char → Except (List Char) (List Nat))
    (dir : List Char) (st : HarvestState) (img : ImageRef)
    (h : (st.imageMap.map Prod.fst).Nodup) :
    ((processImage fetch dir st img).imageMap.map Prod.fst).Nodup := by
  rcases processImage_cases fetch dir st img with ⟨r, he⟩ | ⟨m, he⟩ | ⟨buf, hnm, he⟩
  · rw [he]; exact h
  · rw [he]; exact h
  · have hne : img.url ∉ st.imageMap.map Prod.fst :=
      fun hm => hnm ((mapHas_iff_mem_keys _ _).mpr hm)
    rw [he]
    simp only [List.map_append, List.map_cons, List.map_nil]
    refine h.append (List.nodup_singleton _) ?_
    intro a ha hb
    have : a = img.url := by simpa using hb
    exact hne (this ▸ ha)

/-- The loop body preserves the C9 invariant. -/
theorem processImage_maprel (fetch : List Char → Except (List Char) (List Nat))
    (dir : List Char) (st : HarvestState) (img : ImageRef)
    (h : MapRelInv dir st) : MapRelInv dir (processImage fetch dir st img) := by
  rcases processImage_cases fetch dir st img with ⟨r, he⟩ | ⟨m, he⟩ | ⟨buf, hnm, he⟩
  · rw [he]; exact h
  · rw [he]; exact h
  · rw [he]
    constructor
    · simp only [List.map_append, List.map_cons, List.map_nil, h.1]
    · intro p hp
      rcases List.mem_append.mp hp with hold | hnew
      · exact h.2 p hold
      · have hpe : p = (img.url,
            ⟨pjoin dir (str "image-" ++ natChars (st.imageIndex + 1)
                ++ getExtensionForType (validateImageBytes (some buf)).type),
              pjoin (pbasename dir) (str "image-" ++ natChars (st.imageIndex + 1)
                ++ getExtensionForType (validateImageBytes (some buf)).type),
              (validateImageBytes (some buf)).type, buf.length⟩) := by simpa using hnew
        refine ⟨str "image-" ++ natChars (st.imageIndex + 1)
          ++ getExtensionForType (validateImageBytes (some buf)).type, ?_, ?_⟩
        · rw [List.append_assoc]
          exact startsWithL_append_self (str "image-") _
        · rw [hpe]


/-- The whole loop keeps the mapping keys free of duplicates. -/
theorem processImages_go_nodup (fetch : List Char → Except (List Char) (List Nat))
    (dir : List Char) :
    ∀ (images : List ImageRef) (st : HarvestState),
      (st.imageMap.map Prod.fst).Nodup →
      ((images.foldl (processImage fetch dir) st).imageMap.map Prod.fst).Nodup := by
  intro images
  induction images with
  | nil => intro st h; simpa using h
  | cons a l ih =>
    intro st h
    simp only [List.foldl_cons]
    exact ih _ (processImage_nodup fetch dir st a h)

/-- The whole loop preserves the C9 invariant. -/
theorem processImages_go_maprel (fetch : List Char → Except (List Char) (List Nat))
    (dir : List Char) :
    ∀ (images : List ImageRef) (st : HarvestState),
      MapRelInv dir st → MapRelInv dir (images.foldl (processImage fetch dir) st) := by
  intro images
  induction images with
  | nil => intro st h; simpa using h
  | cons a l ih =>
    intro st h
    simp only [List.foldl_cons]
    exact ih _ (processImage_maprel fetch dir st a h)

/-- C9: after every harvest the mapping keys equal, in order, the URLs of
the downloaded report entries (so the two are in one-to-one correspondence),
and every record's embedding path is the target directory's basename joined
with an image-prefixed file name, hence never an absolute path. -/
theorem mapping_downloaded_bijection_and_relpath :
    ∀ fetch content (dir : List Char),
      (downloadImages fetch content dir).imageMap.map Prod.fst
          = (downloadImages fetch content dir).downloaded.map DownloadedEntry.url
        ∧ ∀ p ∈ (downloadImages fetch content dir).imageMap,
            (∃ fname, startsWithL fname (str "image-") = true
                ∧ p.2.relativePath = pjoin (pbasename dir) fname)
              ∧ startsWithL p.2.relativePath (str "/") = false := by
  intro fetch content dir
  unfold downloadImages
  dsimp only
  split
  · exact ⟨rfl, by intro p hp; simp at hp⟩
  · have hinv : MapRelInv dir (processImages fetch dir (extractImagesFromMarkdown content)) :=
      processImages_go_maprel fetch dir (extractImagesFromMarkdown content)
        emptyHarvestState ⟨rfl, by intro p hp; simp [emptyHarvestState] at hp⟩
    refine ⟨hinv.1, ?_⟩
    intro p hp
    rcases hinv.2 p hp with ⟨fname, hpre, hrel⟩
    refine ⟨⟨fname, hpre, hrel⟩, ?_⟩
    rw [hrel]
    exact pjoin_basename_not_abs dir fname hpre

/-- Witness for C9 at a concrete successful harvest of one reference. -/
theorem mapping_downloaded_bijection_and_relpath_witness :
    (downloadImages oracleOk (some (str "![a](http://e/x)")) (str "imgs")).imageMap.map Prod.fst
        = (downloadImages oracleOk (some (str "![a](http://e/x)"))
            (str "imgs")).downloaded.map DownloadedEntry.url
      ∧ startsWithL
          ((downloadImages oracleOk (some (str "![a](http://e/x)"))
            (str "imgs")).imageMap.headI.2.relativePath) (str "/") = false := by
  constructor
  · exact (mapping_downloaded_bijection_and_relpath oracleOk
      (some (str "![a](http://e/x)")) (str "imgs")).1
  · exact ((mapping_downloaded_bijection_and_relpath oracleOk
      (some (str "![a](http://e/x)")) (str "imgs")).2
      ((downloadImages oracleOk (some (str "![a](http://e/x)")) (str "imgs")).imageMap.headI)
      (by decide)).2

/-- C1 counterexample: a blob referencing the same URL twice whose fetch
always fails is fetched twice and yields two failed entries and no
skipped-duplicate entry, contrary to the claim that later occurrences are
never re-fetched even when the first occurrence failed. -/
theorem dedup_refetch_after_failure_cex :
    (downloadImages oracleErr (some (str "![a](http://e/x) ![b](http://e/x)"))
        (str "imgs")).skipped = []
      ∧ (downloadImages oracleErr (some (str "![a](http://e/x) ![b](http://e/x)"))
          (str "imgs")).fetched = [str "http://e/x", str "http://e/x"]
      ∧ (downloadImages oracleErr (some (str "![a](http://e/x) ![b](http://e/x)"))
          (str "imgs")).failed
        = [⟨str "http://e/x", str "boom"⟩, ⟨str "http://e/x", str "boom"⟩] := by
  decide

/-- C1 (amended: deduplication is keyed on the mapping, which records only
successful downloads, so first occurrence wins only when it succeeded): a URL
appears among the mapping keys at most once; when the first of two
occurrences succeeds, the second is recorded as skipped duplicate and the
URL is fetched exactly once; when the first occurrence fails, the second is
re-fetched and yields a second failed entry. -/
theorem dedup_first_occurrence_wins_on_success :
    (∀ fetch content (dir : List Char),
      ((downloadImages fetch content dir).imageMap.map Prod.fst).Nodup)
    ∧ (∀ fetch (dir : List Char) (r1 r2 : ImageRef) (buf : List Nat),
        r2.url = r1.url →
        (startsWithL r1.url (str "http://") || startsWithL r1.url (str "https://")) = true →
        startsWithL r1.url (str "data:") = false →
        fetch r1.url = Except.ok buf →
        (validateImageBytes (some buf)).valid = true →
        (processImages fetch dir [r1, r2]).downloaded.length = 1
          ∧ (processImages fetch dir [r1, r2]).skipped = [⟨r1.url, str "duplicate"⟩]
          ∧ (processImages fetch dir [r1, r2]).fetched = [r1.url])
    ∧ (∀ fetch (dir : List Char) (r1 r2 : ImageRef) (msg : List Char),
        r2.url = r1.url →
        (startsWithL r1.url (str "http://") || startsWithL r1.url (str "https://")) = true →
        startsWithL r1.url (str "data:") = false →
        fetch r1.url = Except.error msg →
        (processImages fetch dir [r1, r2]).failed = [⟨r1.url, msg⟩, ⟨r1.url, msg⟩]
          ∧ (processImages fetch dir [r1, r2]).fetched = [r1.url, r1.url]
          ∧ (processImages fetch dir [r1, r2]).skipped = []) := by
  refine ⟨?_, ?_, ?_⟩
  · intro fetch content dir
    unfold downloadImages
    dsimp only
    split
    · simp
    · exact processImages_go_nodup fetch dir (extractImagesFromMarkdown content)
        emptyHarvestState (by simp [emptyHarvestState])
  · intro fetch dir r1 r2 buf h21 h2 h3 h4 h5
    have e1 := processImage_success fetch dir emptyHarvestState r1 buf rfl h2 h3 h4 h5
    simp only [processImages, List.foldl_cons, List.foldl_nil]
    rw [e1]
    rw [processImage_dup fetch dir _ r2 (by rw [h21]; exact mapHas_append_self _ _ _)]
    simp [emptyHarvestState, h21]
  · intro fetch dir r1 r2 msg h21 h2 h3 h4
    have e1 := processImage_error fetch dir emptyHarvestState r1 msg rfl h2 h3 h4
    simp only [processImages, List.foldl_cons, List.foldl_nil]
    rw [e1]
    have e2 := processImage_error fetch dir
      { emptyHarvestState with
        imageIndex := emptyHarvestState.imageIndex + 1
        fetched := emptyHarvestState.fetched ++ [r1.url]
        failed := emptyHarvestState.failed ++ [⟨r1.url, msg⟩] } r2 msg rfl
      (by rw [h21]; exact h2) (by rw [h21]; exact h3) (by rw [h21]; exact h4)
    rw [e2]
    simp [emptyHarvestState, h21]

/-- Witness for the amended C1 theorem: both the success and the failure
scenario at a concrete pair of references to the same URL. -/
theorem dedup_first_occurrence_wins_on_success_witness :
    ((processImages oracleOk (str "imgs")
        [⟨str "![a](http://e/x)", str "a", str "http://e/x", SyntaxKind.markdown⟩,
          ⟨str "![b](http://e/x)", str "b", str "http://e/x", SyntaxKind.markdown⟩]).skipped
      = [⟨str "http://e/x", str "duplicate"⟩])
    ∧ ((processImages oracleErr (str "imgs")
        [⟨str "![a](http://e/x)", str "a", str "http://e/x", SyntaxKind.markdown⟩,
          ⟨str "![b](http://e/x)", str "b", str "http://e/x", SyntaxKind.markdown⟩]).fetched
      = [str "http://e/x", str "http://e/x"]) := by
  constructor
  · exact (dedup_first_occurrence_wins_on_success.2.1 oracleOk (str "imgs")
      ⟨str "![a](http://e/x)", str "a", str "http://e/x", SyntaxKind.markdown⟩
      ⟨str "![b](http://e/x)", str "b", str "http://e/x", SyntaxKind.markdown⟩
      pngBuf rfl (by decide) (by decide) rfl (by decide)).2.1
  · exact (dedup_first_occurrence_wins_on_success.2.2 oracleErr (str "imgs")
      ⟨str "![a](http://e/x)", str "a", str "http://e/x", SyntaxKind.markdown⟩
      ⟨str "![b](http://e/x)", str "b", str "http://e/x", SyntaxKind.markdown⟩
      (str "boom") rfl (by decide) (by decide) rfl).2.1

/-- A markdown match consumes at least one character. -/
theorem mdMatchAt_pos (cs alt url : List Char) (L : Nat)
    (h : mdMatchAt cs = some (alt, url, L)) : 1 ≤ L := by
  unfold mdMatchAt at h
  dsimp only at h
  repeat (any_goals (split at h))
  all_goals simp_all
  all_goals omega

/-- An HTML match consumes at least one character. -/
theorem htmlMatchAt_pos (cs url : List Char) (L : Nat)
    (h : htmlMatchAt cs = some (url, L)) : 1 ≤ L := by
  unfold htmlMatchAt at h
  dsimp only at h
  repeat (any_goals (split at h))
  all_goals simp_all
  all_goals omega

/-- Shape of a wrapped markdown match: the original text is the matched
prefix of the input, the match is nonempty and its kind is markdown. -/
theorem mdMatchRef_spec (cs : List Char) (r : ImageRef) (L : Nat)
    (h : mdMatchRef cs = some (r, L)) :
    r.original = cs.take L ∧ 1 ≤ L ∧ r.kind = SyntaxKind.markdown := by
  unfold mdMatchRef at h
  rcases hm : mdMatchAt cs with _ | ⟨alt, url, len⟩
  · rw [hm] at h; simp at h
  · rw [hm] at h
    simp only [Option.some.injEq, Prod.mk.injEq] at h
    obtain ⟨hr, hL⟩ := h
    rw [← hr, ← hL]
    exact ⟨rfl, mdMatchAt_pos cs alt url len hm, rfl⟩

/-- Shape of a wrapped HTML match: the original text is the matched prefix of
the input, the match is nonempty and its kind is html. -/
theorem htmlMatchRef_spec (cs : List Char) (r : ImageRef) (L : Nat)
    (h : htmlMatchRef cs = some (r, L)) :
    r.original = cs.take L ∧ 1 ≤ L ∧ r.kind = SyntaxKind.html := by
  unfold htmlMatchRef at h
  rcases hm : htmlMatchAt cs with _ | ⟨url, len⟩
  · rw [hm] at h; simp at h
  · rw [hm] at h
    simp only [Option.some.injEq, Prod.mk.injEq] at h
    obtain ⟨hr, hL⟩ := h
    rw [← hr, ← hL]
    exact ⟨rfl, htmlMatchAt_pos cs url len hm, rfl⟩

/-- A decomposition survives an extra leading gap character. -/
theorem SplitsInOrder.cons_gap (c : Char) (cs : List Char) (ms : List (List Char))
    (h : SplitsInOrder cs ms) : SplitsInOrder (c :: cs) ms := by
  cases h with
  | nil => exact SplitsInOrder.nil _
  | cons gap m rest ms h' =>
    have he : c :: (gap ++ m ++ rest) = (c :: gap) ++ m ++ rest := by simp
    rw [he]
    exact SplitsInOrder.cons (c :: gap) m rest ms h'

/-- The scan extracts its matches in document order: the input decomposes
into the matched originals, left to right and without overlap. -/
theorem scanAux_splits (matchAt : List Char → Option (ImageRef × Nat))
    (hm : ∀ cs r L, matchAt cs = some (r, L) → r.original = cs.take L ∧ 1 ≤ L) :
    ∀ (fuel : Nat) (cs : List Char),
      SplitsInOrder cs ((scanAux matchAt fuel cs).map ImageRef.original) := by
  intro fuel
  induction fuel with
  | zero => intro cs; exact SplitsInOrder.nil cs
  | succ f ih =>
    intro cs
    cases cs with
    | nil => exact SplitsInOrder.nil []
    | cons c t =>
      have hstep : scanAux matchAt (f + 1) (c :: t)
          = match matchAt (c :: t) with
            | some (r, len) => r :: scanAux matchAt f (t.drop (len - 1))
            | none => scanAux matchAt f t := rfl
      rw [hstep]
      rcases hmt : matchAt (c :: t) with _ | ⟨r, L⟩
      · exact SplitsInOrder.cons_gap c t _ (ih t)
      · obtain ⟨ho, hL⟩ := hm (c :: t) r L hmt
        simp only [List.map_cons]
        obtain ⟨K, rfl⟩ : ∃ K, L = K + 1 := ⟨L - 1, by omega⟩
        have hdecomp : c :: t = [] ++ r.original ++ t.drop (K + 1 - 1) := by
          rw [ho]
          simp [List.take_append_drop]
        rw [hdecomp]
        exact SplitsInOrder.cons [] r.original (t.drop (K + 1 - 1)) _ (ih _)

/-- Every match produced by the scan satisfies a property enjoyed by all
matcher outputs (used for the syntax kinds below). -/
theorem scanAux_kind (matchAt : List Char → Option (ImageRef × Nat)) (k : SyntaxKind)
    (hm : ∀ cs r L, matchAt cs = some (r, L) → r.kind = k) :
    ∀ (fuel : Nat) (cs : List Char), ∀ r ∈ scanAux matchAt fuel cs, r.kind = k := by
  intro fuel
  induction fuel with
  | zero => intro cs r hr; simp [scanAux] at hr
  | succ f ih =>
    intro cs r hr
    cases cs with
    | nil => simp [scanAux] at hr
    | cons c t =>
      have hstep : scanAux matchAt (f + 1) (c :: t)
          = match matchAt (c :: t) with
            | some (r', len) => r' :: scanAux matchAt f (t.drop (len - 1))
            | none => scanAux matchAt f t := rfl
      rw [hstep] at hr
      rcases hmt : matchAt (c :: t) with _ | ⟨r', L⟩
      · rw [hmt] at hr
        exact ih t r hr
      · rw [hmt] at hr
        rcases List.mem_cons.mp hr with he | hm2
        · exact he ▸ hm (c :: t) r' L hmt
        · exact ih _ r hm2

/-- C7: the extractor returns the empty sequence on an absent or empty blob
(never an error: it is a total function); on any blob it returns all
markdown-syntax matches followed by all HTML-syntax matches, each scan
listing its matches in document order (the input decomposes into the matched
texts, left to right); being a pure function it is deterministic and touches
neither network nor disk. -/
theorem extractor_order_and_structure :
    extractImagesFromMarkdown none = []
    ∧ extractImagesFromMarkdown (some []) = []
    ∧ (∀ cs : List Char, extractImagesFromMarkdown (some cs) = mdScan cs ++ htmlScan cs)
    ∧ (∀ cs : List Char, ∀ r ∈ mdScan cs, r.kind = SyntaxKind.markdown)
    ∧ (∀ cs : List Char, ∀ r ∈ htmlScan cs, r.kind = SyntaxKind.html)
    ∧ (∀ cs : List Char, SplitsInOrder cs ((mdScan cs).map ImageRef.original))
    ∧ (∀ cs : List Char, SplitsInOrder cs ((htmlScan cs).map ImageRef.original)) := by
  refine ⟨rfl, rfl, ?_, ?_, ?_, ?_, ?_⟩
  · intro cs
    unfold extractImagesFromMarkdown
    cases cs with
    | nil => rfl
    | cons c t => rfl
  · intro cs
    exact scanAux_kind mdMatchRef SyntaxKind.markdown
      (fun cs' r L h => (mdMatchRef_spec cs' r L h).2.2) cs.length cs
  · intro cs
    exact scanAux_kind htmlMatchRef SyntaxKind.html
      (fun cs' r L h => (htmlMatchRef_spec cs' r L h).2.2) cs.length cs
  · intro cs
    exact scanAux_splits mdMatchRef
      (fun cs' r L h => ⟨(mdMatchRef_spec cs' r L h).1, (mdMatchRef_spec cs' r L h).2.1⟩)
      cs.length cs
  · intro cs
    exact scanAux_splits htmlMatchRef
      (fun cs' r L h => ⟨(htmlMatchRef_spec cs' r L h).1, (htmlMatchRef_spec cs' r L h).2.1⟩)
      cs.length cs

/-- Witness for C7 at a concrete blob holding one markdown and one HTML
reference: the kind facts are applied to the concrete scan members. -/
theorem extractor_order_and_structure_witness :
    extractImagesFromMarkdown none = []
    ∧ (⟨str "![a](http://u/1)", str "a", str "http://u/1", SyntaxKind.markdown⟩ : ImageRef).kind
        = SyntaxKind.markdown := by
  constructor
  · exact extractor_order_and_structure.1
  · exact extractor_order_and_structure.2.2.2.1 (str "![a](http://u/1) <img src=\"http://u/2\">")
      ⟨str "![a](http://u/1)", str "a", str "http://u/1", SyntaxKind.markdown⟩ (by decide)

/-- C6: the rewriter replaces every mapped URL occurrence inside markdown
image syntax (wrapper and optional title preserved) and inside an HTML img
src attribute (quote style preserved) with the record's embedding path,
matching the URL as a literal string; URLs without a mapping entry are left
unchanged (in particular an empty mapping leaves any blob unchanged), and a
URL differing from the mapped one at a metacharacter position is not
rewritten, the escaped pattern matching only literally. -/
theorem rewrite_replaces_mapped_urls :
    (∀ content : List Char, replaceImageUrls content [] = content)
    ∧ replaceImageUrls (str "![a](https://x/a.png)")
        [(str "https://x/a.png", ⟨str "p", str "dir/image-1.png", some ImgType.png, 3⟩)]
      = str "![a](dir/image-1.png)"
    ∧ replaceImageUrls (str "<img src=\"https://x/a.png\">")
        [(str "https://x/a.png", ⟨str "p", str "dir/image-1.png", some ImgType.png, 3⟩)]
      = str "<img src=\"dir/image-1.png\">"
    ∧ replaceImageUrls
        (str "![a](https://x/a.png \"t\") and <img src='https://x/a.png'/> and ![b](https://x/a.png)")
        [(str "https://x/a.png", ⟨str "p", str "d/i.png", some ImgType.png, 3⟩)]
      = str "![a](d/i.png \"t\") and <img src='d/i.png'/> and ![b](d/i.png)"
    ∧ replaceImageUrls (str "![a](https://y/b.png)")
        [(str "https://x/a.png", ⟨str "p", str "dir/image-1.png", some ImgType.png, 3⟩)]
      = str "![a](https://y/b.png)"
    ∧ replaceImageUrls (str "![a](https://x/aXpng)")
        [(str "https://x/a.png", ⟨str "p", str "dir/image-1.png", some ImgType.png, 3⟩)]
      = str "![a](https://x/aXpng)" := by
  exact ⟨fun _ => rfl, by decide, by decide, by decide, by decide, by decide⟩

end GhLoadIssue
